import Mathlib

/-!
Verification of the ORACC JSON-to-docx renderer (`script.py`) against its
natural-language specification.  The definitions below are a shallow
embedding of the renderer core: the recursive annotation-tree walker
(`JsonParser.traverse_c_node` / `parse_d_node` / `parse_l_node`), the
per-element decoration engine (`_add_pre_frag_symbols` /
`_add_post_frag_symbols`), the diacritic converter
(`_convert_2_or_3_subscript`), and the helper renderers for signs,
logograms, determinatives, clusters, ellipses, numbers, qualified and
composite fragments and excised nodes.

Modelling conventions:
- A python-docx `Document` is a list of paragraphs, each a list of styled
  runs; `Document()` starts with no paragraphs.  `add_run` appends a run to
  the last paragraph (text may be empty, matching `add_run("")` /
  `add_run(None)`).
- Uncaught Python exceptions (KeyError, IndexError, NameError, failed
  `assert`, TypeError) are modelled with `Except String`: such an exception
  propagates to the top of the walk and aborts the render, which the
  `Except` bind reproduces.  The one `try` block that actually recovers
  (the `line-start` handler) is modelled by its recovery behaviour; the
  determinative `try` re-raises and is therefore modelled as transparent.
- Python string-classification methods (`isdigit`, `islower`, `isalpha`,
  `upper`, `lower`) are embedded for the character repertoire the program
  manipulates (ASCII, the accented vowels from its own tables, subscript
  and superscript digit glyphs).
- The remote scrape fallback (`_scrape_incomplete_l_node`) is an external
  collaborator; it is abstracted as an oracle `fetch : String → Option
  (List Run)` giving the styled runs for a reference id, `none` meaning the
  id was not found on the page (the code then adds nothing).
-/

/-- A styled run of text: the text plus independent italic and superscript
flags, as set on python-docx runs by the renderer. -/
structure Run where
  text : String
  italic : Bool
  sup : Bool
deriving Repr, DecidableEq

/-- A run with no styling, as produced by a bare `add_run`. -/
def plainRun (t : String) : Run := ⟨t, false, false⟩

/-- A paragraph is the ordered list of its runs. -/
abbrev Para := List Run

/-- Walk-scoped renderer state: the document built so far (ordered
paragraphs), the list of already-rendered lemma reference ids
(`self.l_reflist`), the header flag (`self.found_obverse_or_reverse_d_node`)
and the Aramaic flag (`self.has_aramaic`). -/
structure St where
  doc : List Para
  refs : List String
  header : Bool
  aram : Bool
deriving Repr, DecidableEq

instance {e a : Type} [DecidableEq e] [DecidableEq a] : DecidableEq (Except e a) := fun x y =>
  match x, y with
  | .ok u, .ok v => if h : u = v then .isTrue (by rw [h]) else .isFalse (by simp [h])
  | .error u, .error v => if h : u = v then .isTrue (by rw [h]) else .isFalse (by simp [h])
  | .ok _, .error _ => .isFalse (by simp)
  | .error _, .ok _ => .isFalse (by simp)

/-- Left curly brace character (written via its code point). -/
def lbrace : Char := Char.ofNat 123

/-- Right curly brace character (written via its code point). -/
def rbrace : Char := Char.ofNat 125

/-- Lower-case characters of the repertoire: ASCII `a`-`z` plus the accented
vowels from the module-level accent table.  Embeds Python `str.islower` on
one character. -/
def pyIsLowerChar (c : Char) : Bool :=
  ('a' ≤ c && c ≤ 'z') || c = 'á' || c = 'à' || c = 'é' || c = 'è' ||
    c = 'í' || c = 'ì' || c = 'ú' || c = 'ù'

/-- Upper-case characters of the repertoire: ASCII `A`-`Z` plus the
upper-case accented vowels.  Embeds Python `str.isupper` on one
character. -/
def pyIsUpperChar (c : Char) : Bool :=
  ('A' ≤ c && c ≤ 'Z') || c = 'Á' || c = 'À' || c = 'É' || c = 'È' ||
    c = 'Í' || c = 'Ì' || c = 'Ú' || c = 'Ù'

/-- Alphabetic characters of the repertoire (Python `str.isalpha` on one
character). -/
def pyIsAlphaChar (c : Char) : Bool :=
  pyIsLowerChar c || pyIsUpperChar c

/-- Digit characters (Python `str.isdigit` on one character): ASCII digits,
subscript digits U+2080 to U+2089, superscript digits and the Latin-1
superscripts. -/
def pyIsDigitChar (c : Char) : Bool :=
  c.isDigit || (0x2080 ≤ c.toNat && c.toNat ≤ 0x2089) ||
    (0x2070 ≤ c.toNat && c.toNat ≤ 0x2079) ||
    c.toNat = 0xB2 || c.toNat = 0xB3 || c.toNat = 0xB9

/-- Python `str.upper` on one character of the repertoire: ASCII letters and
the accented vowels are upcased, everything else is unchanged.  Also embeds
`str.capitalize` on a one-character string. -/
def pyUpperChar (c : Char) : Char :=
  if c = 'á' then 'Á' else if c = 'à' then 'À'
  else if c = 'é' then 'É' else if c = 'è' then 'È'
  else if c = 'í' then 'Í' else if c = 'ì' then 'Ì'
  else if c = 'ú' then 'Ú' else if c = 'ù' then 'Ù'
  else c.toUpper

/-- Python `str.lower` on one character of the repertoire. -/
def pyLowerChar (c : Char) : Char :=
  if c = 'Á' then 'á' else if c = 'À' then 'à'
  else if c = 'É' then 'é' else if c = 'È' then 'è'
  else if c = 'Í' then 'í' else if c = 'Ì' then 'ì'
  else if c = 'Ú' then 'ú' else if c = 'Ù' then 'ù'
  else c.toLower

/-- A character whose Python lower-case form is one of the vowels `aeiu`
(the test `char.lower() in "aeiu"` of `_convert_2_or_3_subscript`).  Exactly
the eight ASCII vowel letters satisfy that test, since no other character
lower-cases to a single one of `a`, `e`, `i`, `u`. -/
def isVowelAEIU (c : Char) : Bool :=
  c = 'a' || c = 'e' || c = 'i' || c = 'u' ||
    c = 'A' || c = 'E' || c = 'I' || c = 'U'

/-- Python `str.islower` on a whole string: at least one cased character and
no upper-case cased character. -/
def pyStrIsLower (cs : List Char) : Bool :=
  cs.any (fun c => pyIsLowerChar c || pyIsUpperChar c) && cs.all (fun c => !pyIsUpperChar c)

/-- Whitespace characters, for the `p_text.strip() == ""` test. -/
def pySpace (c : Char) : Bool :=
  c = ' ' || c = '\t' || c = '\n' || c = '\r'

/-- Replace every occurrence of a one-character pattern, scanning left to
right — Python `str.replace` for a one-character pattern. -/
def repl1 (a : Char) (rep : List Char) : List Char → List Char
  | [] => []
  | c :: rest => if c = a then rep ++ repl1 a rep rest else c :: repl1 a rep rest

/-- Replace every occurrence of a two-character pattern, scanning left to
right without overlap — Python `str.replace` for a two-character
pattern. -/
def repl2 (a b : Char) (rep : List Char) : List Char → List Char
  | [] => []
  | [c] => [c]
  | c :: d2 :: rest =>
    if c = a ∧ d2 = b then rep ++ repl2 a b rep rest
    else c :: repl2 a b rep (d2 :: rest)

/-- Replace the first occurrence of a character by another — Python
`str.replace(old, new, 1)` for one-character arguments. -/
def replaceFirstChar : List Char → Char → Char → List Char
  | [], _, _ => []
  | x :: xs, a, b => if x = a then b :: xs else x :: replaceFirstChar xs a b

/-- Substring containment on character lists — the Python `in` operator on
strings. -/
def listContainsSub (needle : List Char) : List Char → Bool
  | [] => needle.isEmpty
  | c :: rest => needle.isPrefixOf (c :: rest) || listContainsSub needle rest

/-- Substring containment on strings. -/
def strContainsSub (hay needle : String) : Bool :=
  listContainsSub needle.data hay.data

/-- Python `str.strip("[]")`: remove leading and trailing square brackets. -/
def pyStripBr (cs : List Char) : List Char :=
  ((cs.dropWhile (fun c => c = '[' || c = ']')).reverse.dropWhile
    (fun c => c = '[' || c = ']')).reverse

/-- The normalisation chain applied to opener/closer literals and excised
fragments: `<<` to `«`, `<` to `‹`, `>>` to `»`, `>` to `›`, and `$`
removed, in that order (Python chained `replace` calls). -/
def pyNormAngles (cs : List Char) : List Char :=
  repl1 '$' []
    (repl1 '>' ['›']
      (repl2 '>' '>' ['»']
        (repl1 '<' ['‹']
          (repl2 '<' '<' ['«'] cs))))

/-- Remove all `|` characters (Python `replace("|", "")`), used for
qualified and composite fragments. -/
def stripPipes (cs : List Char) : List Char :=
  repl1 '|' [] cs

/-- Concatenated text of a paragraph (the `p_text` accumulation loops). -/
def paraText (p : Para) : List Char :=
  (p.map (fun r => r.text.data)).flatten

/-- Accent for a vowel (already lower-cased) under a given subscript glyph,
from the module-level `vowel_subscript_to_accent_map`. -/
def accentBase (v sub : Char) : Char :=
  if sub = '₂' then
    if v = 'a' then 'á' else if v = 'e' then 'é' else if v = 'i' then 'í' else 'ú'
  else
    if v = 'a' then 'à' else if v = 'e' then 'è' else if v = 'i' then 'ì' else 'ù'

/-- Accented replacement for the first vowel: look up the lower-cased vowel
in the accent table and restore the original case. -/
def accentChar (c sub : Char) : Char :=
  let base := accentBase (pyLowerChar c) sub
  if pyIsUpperChar c then pyUpperChar base else base

/-- Second-to-last character of a sign (`sign[-2]`); the space default is
only ever used on lists too short for the guarded access. -/
def penult (cs : List Char) : Char :=
  cs.dropLast.getLastD ' '

/-- Vowel-accenting step shared by the code path and the spec path: find
the first vowel, replace it in the sign without its trailing subscript, or
return the sign unchanged if no vowel exists. -/
def vowelStep (cs : List Char) (sub : Char) : List Char :=
  match cs.find? isVowelAEIU with
  | none => cs
  | some c => replaceFirstChar cs.dropLast c (accentChar c sub)

/-- Core of `JsonParser._convert_2_or_3_subscript` on a character list,
following the order of checks in the source: last character not a digit,
then multi-digit index, then subscript-two / subscript-three dispatch, then
first-vowel accenting. -/
def convCore (cs : List Char) : List Char :=
  match cs.getLast? with
  | none => cs
  | some last =>
    if ¬ pyIsDigitChar last then cs
    else if 2 < cs.length ∧ pyIsDigitChar (penult cs) then cs
    else if last = '₂' then vowelStep cs '₂'
    else if last = '₃' then vowelStep cs '₃'
    else cs

/-- Embedding of `JsonParser._convert_2_or_3_subscript`.  On the empty
string the source raises `IndexError` at `sign[-1]`, modelled as an
error. -/
def strConvert (s : String) : Except String String :=
  match s.data with
  | [] => .error "IndexError sign"
  | c :: cs => .ok (String.mk (convCore (c :: cs)))

/-- Modelled from the spec: the subscript converter as the claim words it —
return unchanged unless the sign ends in a subscript-two or subscript-three
glyph; return unchanged when the two trailing characters are both digits;
otherwise accent the first vowel (case preserved) and drop the trailing
subscript digit, returning unchanged when no vowel is found.  Used only as
the comparison point for the refinement proof. -/
def convertSpecCore (cs : List Char) : List Char :=
  match cs.getLast? with
  | none => cs
  | some last =>
    if ¬ (last = '₂' ∨ last = '₃') then cs
    else if 2 ≤ cs.length ∧ pyIsDigitChar (penult cs) ∧ pyIsDigitChar last then cs
    else if last = '₂' then vowelStep cs '₂'
    else if last = '₃' then vowelStep cs '₃'
    else cs

/-- Modelled from the spec: string-level subscript converter. -/
def convertSpec (s : String) : String :=
  String.mk (convertSpecCore s.data)

/-- A JSON scalar as it can appear in the `statusStart` field: a string or a
number (the source compares it both against the string `id` and against the
integer literal `1`). -/
inductive SVal where
  | str (s : String)
  | num (n : Int)
deriving Repr, DecidableEq

/-- Decoration fields shared by all gdl sub-elements.  Boolean fields model
truthiness of the corresponding JSON values (`breakStart`, `ho`, `queried`,
`hc`, `breakEnd`); `o` is the opener/closer literal (empty when absent);
`id` and `statusStart` are `none` when the key is absent; `delim` is the
trailing delimiter. -/
structure Deco where
  breakStart : Bool := false
  o : String := ""
  id : Option String := none
  statusStart : Option SVal := none
  ho : Bool := false
  queried : Bool := false
  hc : Bool := false
  breakEnd : Bool := false
  delim : Option String := none
deriving Repr

/-- The value of `gdl_node.get("statusStart", "")`. -/
def ssVal (d : Deco) : SVal :=
  d.statusStart.getD (.str "")

/-- The guard `"id" in gdl_node and gdl_node.get("statusStart", "") ==
gdl_node["id"]` used by both symbol emitters. -/
def ssEqId (d : Deco) : Bool :=
  match d.id with
  | some i => ssVal d = .str i
  | none => false

/-- The guard `gdl_node.get("statusStart", "") == 1` (comparison against the
integer literal). -/
def ssEqOne (d : Deco) : Bool :=
  ssVal d = .num 1

/-- The module-level `closing_punct_mirror` table, mapping a closing
punctuation form to its opening mirror.  `none` models a `KeyError` on
lookup of a missing key. -/
def mirrorLookup (cs : List Char) : Option (List Char) :=
  if cs = [']'] then some ['[']
  else if cs = [')'] then some ['(']
  else if cs = ['›'] then some ['‹']
  else if cs = ['»'] then some ['«']
  else if cs = [')', '›'] then some ['‹', '(']
  else none

/-- Runs emitted for a delimiter by `_add_post_frag_symbols`: nothing when
absent or empty, a slash padded with spaces, or the delimiter itself. -/
def delimRuns (dl : Option String) : List Run :=
  match dl with
  | none => []
  | some d => if d = "" then [] else if d = "/" then [plainRun " / "] else [plainRun d]

/-- Embedding of `JsonParser._add_pre_frag_symbols` as the list of runs it
appends: `[` on `breakStart`; the mirrored, normalised opener when
`statusStart` equals the element id (a `KeyError` when the normalised
literal is not in the mirror table); the literal as-is when `statusStart`
is the integer `1`; `⸢` on `ho`. -/
def preRuns (d : Deco) : Except String (List Run) :=
  let a := if d.breakStart then [plainRun "["] else []
  let o0 := pyStripBr d.o.data
  if ssEqId d then
    match mirrorLookup (pyNormAngles o0) with
    | none => .error "KeyError mirror"
    | some m =>
      .ok (a ++ [plainRun (String.mk m)] ++ (if d.ho then [plainRun "⸢"] else []))
  else if ssEqOne d then
    .ok (a ++ [plainRun (String.mk o0)] ++ (if d.ho then [plainRun "⸢"] else []))
  else
    .ok (a ++ (if d.ho then [plainRun "⸢"] else []))

/-- Embedding of `JsonParser._add_post_frag_symbols` as the list of runs it
appends: `(?)` on `queried`; `⸣` on `hc`; the normalised literal (no
mirroring) when `statusStart` equals the element id; `]` on `breakEnd`;
then the delimiter. -/
def postRuns (d : Deco) : List Run :=
  (if d.queried then [plainRun "(?)"] else []) ++
    (if d.hc then [plainRun "⸣"] else []) ++
    (if ssEqId d then [plainRun (String.mk (pyNormAngles (pyStripBr d.o.data)))] else []) ++
    (if d.breakEnd then [plainRun "]"] else []) ++
    delimRuns d.delim

/-- A gdl sub-element of a Lemma node, discriminated exactly as the source
dispatches on dictionary keys: `v` (sign form), `s` (logogram), `det`
(determinative wrapping an inner sequence), `gg` (logogram cluster), `x`
(ellipsis), `n` (numeral with its `form`), `q` (qualified fragment), `c`
(composite fragment), `mods` (modified form with its `form`). -/
inductive Gdl where
  | sign (v : String) (d : Deco)
  | logo (s : String) (role : Option String) (d : Deco)
  | det (dt : String) (pos : String) (seq : List Gdl) (d : Deco)
  | cluster (group : List Gdl) (d : Deco)
  | ellip (x : String) (d : Deco)
  | num (form : String) (d : Deco)
  | qual (q : String) (d : Deco)
  | comp (c : String) (d : Deco)
  | mods (form : String) (d : Deco)

/-- The decoration fields of a sub-element (the same dictionary holds both
the discriminant and the decoration keys). -/
def decoOf : Gdl → Deco
  | .sign _ d => d
  | .logo _ _ d => d
  | .det _ _ _ d => d
  | .cluster _ d => d
  | .ellip _ d => d
  | .num _ d => d
  | .qual _ d => d
  | .comp _ d => d
  | .mods _ d => d

/-- Loop body of `_add_excised_d_node`: walk the normalised fragment
character by character tracking determinative mode (`{` opens, `}` closes),
capitalising lower-case determinative letters other than `m` and `d`,
italicising lower-case characters and superscripting inside determinative
mode; non-alphanumeric characters pass through unstyled. -/
def exciseLoop : List Char → Bool → List Run
  | [], _ => []
  | c :: rest, m =>
    if c = lbrace then exciseLoop rest true
    else if c = rbrace then exciseLoop rest false
    else if pyIsAlphaChar c || pyIsDigitChar c then
      let c2 := if m && pyIsLowerChar c && ¬ c = 'm' && ¬ c = 'd' then pyUpperChar c else c
      ⟨String.mk [c2], pyIsLowerChar c2, m⟩ :: exciseLoop rest m
    else
      plainRun (String.mk [c]) :: exciseLoop rest m

/-- Embedding of `JsonParser._add_excised_d_node` as the list of runs it
appends: normalise angle brackets, determine the initial determinative mode
(on when only a closing `}` appears before any `{`), run the character
loop, then append the delimiter as a run (empty when absent, matching
`add_run(None)`). -/
def exciseRuns (frag : String) (dl : Option String) : List Run :=
  let cs := pyNormAngles frag.data
  let m0 := !cs.contains lbrace && cs.contains rbrace
  exciseLoop cs m0 ++ [plainRun (dl.getD "")]

/-- Runs appended by `_add_aramaic_frag`: one run per character of the raw
fragment, italic when alphabetic, followed by a single space run. -/
def aramRuns (frag : String) : List Run :=
  frag.data.map (fun c => ⟨String.mk [c], pyIsAlphaChar c, false⟩) ++ [plainRun " "]

/-- ASCII fraction spellings substituted by `_add_number`. -/
def fracSub (form : String) : String :=
  if form = "1/2" then "½" else if form = "1/3" then "⅓"
  else if form = "2/3" then "⅔" else form

mutual

/-- Embedding of the per-sub-element dispatch shared by `parse_l_node` and
`_add_logogram_cluster`, covering `_add_continuing_sign_form`,
`_add_logogram`, `_add_determinative`, `_add_logogram_cluster`,
`_add_ellipsis`, `_add_number` and the inline `q`, `c` and `mods`
branches.  `dot` is `add_dot_delim`: the extra superscript `.` appended
after a determinative directly followed by another determinative.  Errors
model uncaught exceptions: failed `assert` statements, `KeyError` /
`IndexError` on the determinative inner sequence, the unbound local `det`
(`NameError`) for an unknown determinative inner kind, `IndexError` inside
`_convert_2_or_3_subscript` on an empty reading, the `TypeError` of
concatenating a composite fragment with a missing delimiter, and the
mirror-table `KeyError`. -/
def renderGdl (g : Gdl) (dot : Bool) (p : Para) : Except String Para :=
  match g with
  | .sign v d => do
    let pre ← preRuns d
    let word ← strConvert v
    .ok (p ++ pre ++ [⟨word, pyStrIsLower word.data, false⟩] ++ postRuns d)
  | .logo s _ d =>
    if s = "" then .error "AssertionError logogram"
    else do
      let pre ← preRuns d
      let word ← strConvert s
      .ok (p ++ pre ++ [⟨word, false, false⟩] ++ postRuns d)
  | .det dt pos seq _ =>
    if ¬ (dt = "semantic" ∨ dt = "phonetic") then .error "AssertionError det"
    else if pos = "pre" ∨ pos = "post" then
      match seq with
      | [] => .error "IndexError det seq"
      | dn :: _ => do
        let pre ← preRuns (decoOf dn)
        let detStr ← (match dn with
          | .logo s _ _ => Except.ok s
          | .sign v _ => Except.ok v
          | .mods form _ => Except.ok form
          | .num form _ => Except.ok (if form = "1" then "m" else form)
          | _ => Except.error "NameError det")
        let det2 ← strConvert detStr
        .ok (p ++ pre ++ [⟨det2, false, true⟩] ++ postRuns (decoOf dn) ++
          (if dot then [⟨".", false, true⟩] else []))
    else .ok p
  | .cluster group d => do
    let p1 ← renderCluster group p
    .ok (p1 ++ [plainRun (d.delim.getD "")])
  | .ellip x d =>
    if x = "ellipsis" then do
      let pre ← preRuns d
      .ok (p ++ pre ++ [plainRun "..."] ++ postRuns d)
    else .error "AssertionError ellipsis"
  | .num form d => do
    let pre ← preRuns d
    .ok (p ++ pre ++ [plainRun (fracSub form)] ++ postRuns d)
  | .qual q d =>
    .ok (p ++ exciseRuns (String.mk (stripPipes q.data)) d.delim)
  | .comp c d =>
    match d.delim with
    | none => .error "TypeError composite delim"
    | some dl => .ok (p ++ [plainRun (String.mk (stripPipes c.data) ++ dl)])
  | .mods form d => do
    let pre ← preRuns d
    .ok (p ++ pre ++ [⟨form, pyStrIsLower form.data, false⟩] ++ postRuns d ++
      [plainRun (d.delim.getD "")])

/-- Loop of `_add_logogram_cluster` over a cluster group: every element is
dispatched like at lemma level, but determinatives never receive the extra
dot separator. -/
def renderCluster (gs : List Gdl) (p : Para) : Except String Para :=
  match gs with
  | [] => .ok p
  | g :: rest => do
    let p1 ← renderGdl g false p
    renderCluster rest p1

end

/-- Loop of `parse_l_node` over the gdl list: like the cluster loop, but a
determinative directly followed by another determinative receives the extra
superscript dot separator. -/
def renderLemmaList (gs : List Gdl) (p : Para) : Except String Para :=
  match gs with
  | [] => .ok p
  | g :: rest => do
    let dot := match g, rest with
      | .det _ _ _ _, .det _ _ _ _ :: _ => true
      | _, _ => false
    let p1 ← renderGdl g dot p
    renderLemmaList rest p1

/-- A Lemma node: its reference id (`ref`), raw fragment (`frag`, absent in
some incomplete nodes), and from its `f` member the language code, the gdl
sub-element list (empty when the `gdl` key is missing or empty) and the
lemma-level delimiter. -/
structure LNode where
  ref : String
  frag : Option String
  lang : Option String
  gdl : List Gdl
  fdelim : Option String

/-- Embedding of `JsonParser.parse_l_node`.  The reference id is checked
against and recorded in the dedup list before anything else; the last
paragraph is then fetched (`IndexError` on an empty document); Aramaic and
the English-like `qcu-949` short-circuit; a missing gdl list goes to the
remote-scrape fallback (an error when `frag` is absent, since the verbose
trace formats `l_dict["frag"]` unconditionally); otherwise the gdl list is
rendered and the lemma-level delimiter appended. -/
def parseL (fetch : String → Option (List Run)) (ln : LNode) (st : St) : Except String St :=
  if ln.ref ∈ st.refs then .ok st
  else
    match st.doc.getLast? with
    | none => .error "IndexError paragraphs"
    | some lastP =>
      if ln.lang = some "arc" then
        .ok ⟨st.doc.dropLast ++ [lastP ++ aramRuns (ln.frag.getD "")],
          st.refs ++ [ln.ref], st.header, true⟩
      else if ln.lang = some "qcu-949" then
        .ok ⟨st.doc, st.refs ++ [ln.ref], st.header, st.aram⟩
      else if ln.gdl.isEmpty then
        match ln.frag with
        | none => .error "KeyError frag"
        | some _ =>
          match fetch ln.ref with
          | none => .ok ⟨st.doc, st.refs ++ [ln.ref], st.header, st.aram⟩
          | some rs =>
            .ok ⟨st.doc.dropLast ++ [lastP ++ rs ++ [plainRun " "]],
              st.refs ++ [ln.ref], st.header, st.aram⟩
      else do
        let p1 ← renderLemmaList ln.gdl lastP
        .ok ⟨st.doc.dropLast ++ [p1 ++ [plainRun (ln.fdelim.getD "")]],
          st.refs ++ [ln.ref], st.header, st.aram⟩

/-- An annotation-tree node as dispatched by `traverse_c_node` on the
`node` tag: a chunk (`c`), a discontinuity (`d`), a lemma (`l`), or an
unknown tag (logged and skipped). -/
inductive Node where
  | c (id : Option String) (ctype : Option String) (cdl : List Node)
  | d (dtype : Option String) (frag : Option String) (delim : Option String)
  | l (ln : LNode)
  | unk (tag : String)

/-- Embedding of `JsonParser.parse_d_node`.  `line-start` inspects the last
paragraph (the `try` around `doc.paragraphs[-1]` recovers on an empty
document) and skips when its text contains a header token or is
whitespace-only; `obverse` and `reverse` insert their header paragraphs and
set the header flag; `punct` appends fragment and delimiter runs to the
last paragraph; `excised` renders via the excised-fragment routine (a
failed `assert` on an empty document) or is skipped without a `frag`;
`nonx`, `nonw`, `object`, `surface` and unknown types are no-ops. -/
def parseD (dtype frag delim : Option String) (st : St) : Except String St :=
  match dtype with
  | none => .error "KeyError d type"
  | some t =>
    if t = "line-start" then
      match st.doc.getLast? with
      | none => .ok st
      | some lastP =>
        if listContainsSub "Text".data (paraText lastP) ||
            listContainsSub "Obverse".data (paraText lastP) ||
            listContainsSub "Reverse".data (paraText lastP) ||
            listContainsSub "column".data (paraText lastP) then
          .ok st
        else if (paraText lastP).all pySpace then .ok st
        else .ok ⟨st.doc ++ [[]], st.refs, st.header, st.aram⟩
    else if t = "obverse" then
      let d1 := st.doc ++ [[]]
      let d2 := if 2 ≤ d1.length then d1 ++ [[]] else d1
      .ok ⟨d2.dropLast ++ [(d2.getLastD []) ++ [plainRun "Obverse"]] ++ [[]],
        st.refs, true, st.aram⟩
    else if t = "reverse" then
      .ok ⟨st.doc ++ [[], [plainRun "Reverse"], []], st.refs, true, st.aram⟩
    else if t = "punct" then
      match st.doc.getLast? with
      | none => .error "IndexError paragraphs punct"
      | some lastP =>
        match frag with
        | none => .error "KeyError punct frag"
        | some fs =>
          .ok ⟨st.doc.dropLast ++ [lastP ++ [plainRun fs, plainRun (delim.getD "")]],
            st.refs, st.header, st.aram⟩
    else if t = "excised" then
      match frag with
      | none => .ok st
      | some fs =>
        match st.doc.getLast? with
        | none => .error "AssertionError excised paragraphs"
        | some lastP =>
          .ok ⟨st.doc.dropLast ++ [lastP ++ exciseRuns fs delim], st.refs, st.header, st.aram⟩
    else .ok st

mutual

/-- Embedding of `JsonParser.traverse_c_node` for one node.  A chunk with a
falsy id is skipped; a chunk of type `discourse` inserts the placeholder
`Text` header (plus a blank paragraph) when no obverse/reverse header was
seen yet; children are then walked in order.  Discontinuities and lemmas
dispatch to their parsers; unknown node tags are logged and skipped. -/
def walkNode (fetch : String → Option (List Run)) (n : Node) (st : St) : Except String St :=
  match n with
  | .c id ctype cdl =>
    if id.getD "" = "" then .ok st
    else
      match ctype with
      | none => .error "KeyError c type"
      | some ty =>
        let st1 : St :=
          if ty = "discourse" ∧ ¬ st.header then
            ⟨st.doc ++ [[plainRun "Text"], []], st.refs, true, st.aram⟩
          else st
        walkNodes fetch cdl st1
  | .d dtype frag delim => parseD dtype frag delim st
  | .l ln => parseL fetch ln st
  | .unk _ => .ok st

/-- The loop of `traverse_c_node` over a node list. -/
def walkNodes (fetch : String → Option (List Run)) (ns : List Node) (st : St) : Except String St :=
  match ns with
  | [] => .ok st
  | n :: rest => do
    let st1 ← walkNode fetch n st
    walkNodes fetch rest st1

end

/-- A top-level ORACC JSON: its `type` tag and the top-level `cdl` node
list. -/
structure JTree where
  ttype : String
  cdl : List Node

/-- Loop of `parse_json` over the top-level node list, each entry handed to
`traverse_c_node`.  A non-chunk top-level entry makes the source crash with
a `KeyError` on the missing chunk fields, modelled as an error. -/
def walkTop (fetch : String → Option (List Run)) (ns : List Node) (st : St) : Except String St :=
  match ns with
  | [] => .ok st
  | n :: rest =>
    match n with
    | .c id ctype cdl => do
      let st1 ← walkNode fetch (.c id ctype cdl) st
      walkTop fetch rest st1
    | _ => .error "KeyError top node"

/-- Embedding of `JsonParser.parse_json`: a tree whose `type` is not `cdl`
renders nothing (the empty document); otherwise the top-level nodes are
walked starting from the empty state. -/
def parseJson (fetch : String → Option (List Run)) (t : JTree) : Except String (List Para) :=
  if t.ttype ≠ "cdl" then .ok []
  else (walkTop fetch t.cdl ⟨[], [], false, false⟩).map St.doc

/-- The default decoration: every key absent. -/
def deco0 : Deco := {}

/-- A fetch oracle that finds nothing, for concrete instances. -/
def fetch0 : String → Option (List Run) := fun _ => none

theorem vowel_not_digit (c : Char) (h : isVowelAEIU c = true) : pyIsDigitChar c = false := by
  simp only [isVowelAEIU, Bool.or_eq_true, decide_eq_true_eq] at h
  rcases h with ((((((h | h) | h) | h) | h) | h) | h) | h <;> subst h <;> decide

theorem not_vowel_of_digit (c : Char) (h : pyIsDigitChar c = true) : isVowelAEIU c = false := by
  cases hv : isVowelAEIU c with
  | false => rfl
  | true => rw [vowel_not_digit c hv] at h; exact absurd h (by simp)

theorem convCore_eq_spec (cs : List Char) : convCore cs = convertSpecCore cs := by
  unfold convCore convertSpecCore
  cases hl : cs.getLast? with
  | none => rfl
  | some last =>
    by_cases h23 : last = '₂' ∨ last = '₃'
    · have hd : pyIsDigitChar last = true := by rcases h23 with h | h <;> subst h <;> decide
      by_cases hp : 2 < cs.length ∧ pyIsDigitChar (penult cs)
      · have hq : 2 ≤ cs.length ∧ pyIsDigitChar (penult cs) ∧ pyIsDigitChar last :=
          ⟨Nat.le_of_lt hp.1, hp.2, hd⟩
        simp [hd, hp, hq, h23]
      · by_cases hq : 2 ≤ cs.length ∧ pyIsDigitChar (penult cs) ∧ pyIsDigitChar last
        · have hlen : cs.length = 2 := by
            rcases Nat.lt_or_ge 2 cs.length with hlt | hge
            · exact absurd ⟨hlt, hq.2.1⟩ hp
            · omega
          match cs, hlen with
          | [a, b], _ =>
            have hb : b = last := by
              have : (some b : Option Char) = some last := by
                simpa [List.getLast?] using hl
              simpa using this
            have hpen : penult [a, b] = a := by simp [penult, List.dropLast]
            have hda : pyIsDigitChar a = true := by
              have := hq.2.1; rwa [hpen] at this
            have hva : isVowelAEIU a = false := not_vowel_of_digit a hda
            have hvb : isVowelAEIU b = false := by
              subst hb; rcases h23 with h | h <;> subst h <;> decide
            have hvs : ∀ sub : Char, vowelStep [a, b] sub = [a, b] := by
              intro sub
              simp [vowelStep, List.find?, hva, hvb]
            simp [hd, hp, hq, hvs]
        · have hq2 : ¬ (2 ≤ cs.length ∧ pyIsDigitChar (penult cs) = true) :=
            fun hcon => hq ⟨hcon.1, hcon.2, hd⟩
          rcases h23 with h | h <;> subst h <;> simp [hd, hp, hq2]
    · have h2 : ¬ last = '₂' := fun hh => h23 (Or.inl hh)
      have h3 : ¬ last = '₃' := fun hh => h23 (Or.inr hh)
      by_cases hd : pyIsDigitChar last
      · by_cases hp : 2 < cs.length ∧ pyIsDigitChar (penult cs)
        · simp [hd, hp, h23]
        · simp [hd, hp, h2, h3, h23]
      · simp [hd, h23]

theorem strConvert_eq_spec (s : String) (hs : s ≠ "") : strConvert s = .ok (convertSpec s) := by
  obtain ⟨data⟩ := s
  match data with
  | [] => exact absurd rfl hs
  | c :: cs =>
    show Except.ok (String.mk (convCore (c :: cs))) =
      Except.ok (String.mk (convertSpecCore (c :: cs)))
    rw [convCore_eq_spec]

/-- C7: the subscript converter maps `bi₂` to `bí` and `bu₃` to `bù`; a
sign whose two trailing characters are both digits is returned unchanged
(`la₁₂`); a sign not ending in a subscript-two or subscript-three glyph is
returned unchanged (`KI`); and in general, on every non-empty sign it
agrees with the spec-worded converter `convertSpec`, which replaces the
first vowel `a`/`e`/`i`/`u` (case-insensitively, preserving case) by its
accented counterpart, drops the trailing subscript digit, and returns a
vowel-less sign unchanged. -/
theorem c7_subscript_converter :
    strConvert "bi₂" = .ok "bí" ∧ strConvert "bu₃" = .ok "bù" ∧
    strConvert "la₁₂" = .ok "la₁₂" ∧ strConvert "KI" = .ok "KI" ∧
    ∀ s : String, s ≠ "" → strConvert s = .ok (convertSpec s) :=
  ⟨by decide, by decide, by decide, by decide, fun s hs => strConvert_eq_spec s hs⟩

/-- Witness for C7 at the concrete sign `bi₂`. -/
theorem c7_witness : strConvert "bi₂" = .ok (convertSpec "bi₂") :=
  c7_subscript_converter.2.2.2.2 "bi₂" (by decide)

/-- C8 counterexample: the converter is not total — on the empty string the
source evaluates `sign[-1]`, raising an uncaught `IndexError`, so
`convert("")` does not return a string. -/
theorem c8_counterexample : strConvert "" = .error "IndexError sign" := by decide

/-- C8 as amended: the subscript converter is a pure function that returns
a string without raising on every non-empty input; on the empty string it
raises an `IndexError`. -/
theorem c8_total_on_nonempty : ∀ s : String, s ≠ "" → ∃ r, strConvert s = .ok r :=
  fun s hs => ⟨convertSpec s, strConvert_eq_spec s hs⟩

/-- Witness for C8 as amended, at the concrete sign `KI`. -/
theorem c8_witness : ∃ r, strConvert "KI" = .ok r :=
  c8_total_on_nonempty "KI" (by decide)

/-- C2 counterexample: a logogram with the lower-case reading `ma` is
rendered without italics (`_add_logogram` never sets the italic flag), so
`italic == is_lower_case(reading)` fails for rendered Logograms. -/
theorem c2_counterexample :
    renderGdl (.logo "ma" none deco0) false [] = .ok [⟨"ma", false, false⟩] ∧
    pyStrIsLower "ma".data = true := by
  constructor
  · decide
  · decide

/-- C2 as amended: for every rendered SignForm the emitted reading run is
italic exactly when the (subscript-converted) reading is lower case,
independently of surrounding context; a rendered Logogram reading run is
never italic, whatever the case of its reading. -/
theorem c2_case_to_emphasis :
    (∀ v d dot p p2, renderGdl (.sign v d) dot p = .ok p2 →
      ∃ pre w, strConvert v = .ok w ∧
        p2 = p ++ pre ++ [⟨w, pyStrIsLower w.data, false⟩] ++ postRuns d) ∧
    (∀ s role d dot p p2, renderGdl (.logo s role d) dot p = .ok p2 →
      ∃ pre w, strConvert s = .ok w ∧
        p2 = p ++ pre ++ [⟨w, false, false⟩] ++ postRuns d) := by
  constructor
  · intro v d dot p p2 h
    simp only [renderGdl, bind, Except.bind] at h
    cases hpre : preRuns d with
    | error e => rw [hpre] at h; exact absurd h (by simp)
    | ok pre =>
      rw [hpre] at h
      cases hw : strConvert v with
      | error e => rw [hw] at h; exact absurd h (by simp)
      | ok w =>
        rw [hw] at h
        simp only [Except.ok.injEq] at h
        exact ⟨pre, w, rfl, h.symm⟩
  · intro s role d dot p p2 h
    simp only [renderGdl] at h
    by_cases hs : s = ""
    · rw [if_pos hs] at h; exact absurd h (by simp)
    · rw [if_neg hs] at h
      simp only [bind, Except.bind] at h
      cases hpre : preRuns d with
      | error e => rw [hpre] at h; exact absurd h (by simp)
      | ok pre =>
        rw [hpre] at h
        cases hw : strConvert s with
        | error e => rw [hw] at h; exact absurd h (by simp)
        | ok w =>
          rw [hw] at h
          simp only [Except.ok.injEq] at h
          exact ⟨pre, w, rfl, h.symm⟩

/-- Witness for C2 as amended, at the sign reading `tu`. -/
theorem c2_witness :
    ∃ pre w, strConvert "tu" = .ok w ∧
      ([⟨"tu", true, false⟩] : Para) =
        [] ++ pre ++ [⟨w, pyStrIsLower w.data, false⟩] ++ postRuns deco0 :=
  c2_case_to_emphasis.1 "tu" deco0 false [] [⟨"tu", true, false⟩] (by decide)

/-- Concrete tree for the C3 counterexample: a discourse chunk holding one
lemma whose gdl list contains a determinative with an empty inner
sequence. -/
def c3tree : JTree :=
  ⟨"cdl", [.c (some "c1") (some "discourse")
    [.l ⟨"r1", some "x", some "akk", [.det "semantic" "post" [] deco0], none⟩]]⟩

/-- C3 counterexample: a Determinative without its inner sequence does not
get skipped — the `except` branch around `_add_determinative` re-raises,
so the uncaught exception aborts the whole render. -/
theorem c3_counterexample : parseJson fetch0 c3tree = .error "IndexError det seq" := by decide

/-- C3 as amended: a Chunk missing its id is skipped with a diagnostic and
traversal continues with its siblings, but a Determinative sub-element
without its inner sequence raises an uncaught error that aborts the whole
render rather than being skipped. -/
theorem c3_malformed_handling :
    (∀ f id ty cdl ns st, id.getD "" = "" →
      walkNodes f (Node.c id ty cdl :: ns) st = walkNodes f ns st) ∧
    (∀ dt pos d dot p, (dt = "semantic" ∨ dt = "phonetic") → (pos = "pre" ∨ pos = "post") →
      renderGdl (.det dt pos [] d) dot p = .error "IndexError det seq") := by
  constructor
  · intro f id ty cdl ns st h
    simp [walkNodes, walkNode, h, bind, Except.bind]
  · intro dt pos d dot p h1 h2
    simp [renderGdl, h1, h2]

/-- Witness for C3 as amended, at a concrete malformed determinative. -/
theorem c3_witness :
    renderGdl (.det "semantic" "post" [] deco0) false [] = .error "IndexError det seq" :=
  c3_malformed_handling.2 "semantic" "post" deco0 false [] (Or.inl rfl) (Or.inr rfl)

/-- C4 counterexample: on an element whose `statusStart` equals its own id,
the stored literal `<<` normalises to `«`, which is not a key of
`closing_punct_mirror`, so `preSymbols` raises a `KeyError` instead of
emitting a mirrored opening form; and an element whose `statusStart` does
not equal its id emits nothing at all from the stored literal via
`postSymbols` (the closer is emitted on the `statusStart == id` element
instead). -/
theorem c4_counterexample :
    preRuns { o := "<<", id := some "X", statusStart := some (.str "X") } =
      .error "KeyError mirror" ∧
    postRuns { o := ">>", id := some "X", statusStart := some (.str "Y") } = [] := by
  constructor
  · decide
  · decide

/-- C4 as amended: on an element whose `statusStart` equals its own id the
stored literal is the closing form: when it normalises to `»` (stored
`>>`), `preSymbols` emits the mirrored opening `«` and `postSymbols` on
that same element emits the unmirrored closer `»`; a stored literal
normalising to `«` (stored `<<`) is not in the mirror table and raises a
`KeyError`; and an element whose `statusStart` does not equal its id (and
is not the integer 1) emits no opener or closer from the stored literal in
either direction. -/
theorem c4_mirror_symmetry :
    (∀ d : Deco, ssEqId d = true → pyNormAngles (pyStripBr d.o.data) = ['»'] →
      preRuns d = .ok ((if d.breakStart then [plainRun "["] else []) ++ [plainRun "«"] ++
          (if d.ho then [plainRun "⸢"] else [])) ∧
      postRuns d = (if d.queried then [plainRun "(?)"] else []) ++
          (if d.hc then [plainRun "⸣"] else []) ++ [plainRun "»"] ++
          (if d.breakEnd then [plainRun "]"] else []) ++ delimRuns d.delim) ∧
    (∀ d : Deco, ssEqId d = true → pyNormAngles (pyStripBr d.o.data) = ['«'] →
      preRuns d = .error "KeyError mirror") ∧
    (∀ d : Deco, ssEqId d = false → ssEqOne d = false →
      preRuns d = .ok ((if d.breakStart then [plainRun "["] else []) ++
          (if d.ho then [plainRun "⸢"] else [])) ∧
      postRuns d = (if d.queried then [plainRun "(?)"] else []) ++
          (if d.hc then [plainRun "⸣"] else []) ++
          (if d.breakEnd then [plainRun "]"] else []) ++ delimRuns d.delim) := by
  refine ⟨?_, ?_, ?_⟩
  · intro d h1 h2
    constructor
    · simp [preRuns, h1, h2, mirrorLookup]
    · simp [postRuns, h1, h2]
  · intro d h1 h2
    simp [preRuns, h1, h2, mirrorLookup]
  · intro d h1 h2
    constructor
    · simp [preRuns, h1, h2]
    · simp [postRuns, h1]

/-- Witness for C4 as amended, at a concrete element storing `>>` with
matching `statusStart`. -/
theorem c4_witness :
    preRuns { o := ">>", id := some "X", statusStart := some (.str "X") } =
      .ok ([] ++ [plainRun "«"] ++ []) ∧
    postRuns { o := ">>", id := some "X", statusStart := some (.str "X") } =
      [] ++ [] ++ [plainRun "»"] ++ [] ++ delimRuns none := by
  have h := (c4_mirror_symmetry.1
    { o := ">>", id := some "X", statusStart := some (.str "X") } (by decide) (by decide))
  simpa using h

/-- C5 counterexample: a line-start Discontinuity after a paragraph whose
text is `xText` — non-empty and equal to none of the header tokens — adds
no new paragraph, because the handler tests substring containment
(`"Text" in p_text`), not equality. -/
theorem c5_counterexample :
    parseD (some "line-start") none none ⟨[[plainRun "xText"]], [], false, false⟩ =
      .ok ⟨[[plainRun "xText"]], [], false, false⟩ ∧
    paraText [plainRun "xText"] ≠ [] ∧
    ("xText" : String) ≠ "Text" ∧ ("xText" : String) ≠ "Obverse" ∧
    ("xText" : String) ≠ "Reverse" := by
  refine ⟨?_, ?_, ?_, ?_, ?_⟩ <;> decide

/-- C5 as amended: a line-start Discontinuity adds no paragraph when the
document has no paragraph yet, when the last paragraph's text contains one
of the substrings `Text`, `Obverse`, `Reverse` or `column`, or when that
text is whitespace-only; otherwise it appends exactly one new empty
paragraph. -/
theorem ok_ite2 {e a : Type} (c d2 : Prop) [Decidable c] [Decidable d2] (x y z : a) :
    (if c then (Except.ok x : Except e a) else if d2 then .ok y else .ok z) =
      .ok (if c then x else if d2 then y else z) := by
  by_cases hc : c <;> by_cases hd : d2 <;> simp [hc, hd]

theorem c5_line_start :
    ∀ fr dl (st : St),
      (st.doc = [] → parseD (some "line-start") fr dl st = .ok st) ∧
      (∀ lastP, st.doc.getLast? = some lastP →
        parseD (some "line-start") fr dl st = .ok
          (if listContainsSub "Text".data (paraText lastP) ||
              listContainsSub "Obverse".data (paraText lastP) ||
              listContainsSub "Reverse".data (paraText lastP) ||
              listContainsSub "column".data (paraText lastP) then st
           else if (paraText lastP).all pySpace then st
           else ⟨st.doc ++ [[]], st.refs, st.header, st.aram⟩)) := by
  intro fr dl st
  constructor
  · intro h
    simp [parseD, h]
  · intro lastP h
    simp only [parseD, h]
    exact ok_ite2 _ _ _ _ _

/-- Witness for C5 as amended: after a non-empty, non-header paragraph a
line-start appends exactly one empty paragraph. -/
theorem c5_witness :
    parseD (some "line-start") none none ⟨[[plainRun "abc"]], [], false, false⟩ =
      .ok ⟨[[plainRun "abc"], []], [], false, false⟩ := by
  have h := (c5_line_start none none ⟨[[plainRun "abc"]], [], false, false⟩).2
    [plainRun "abc"] (by decide)
  rw [h]
  decide

/-- Concrete tree for the C6 counterexample: the obverse Discontinuity is
the first (and only) Discontinuity, but it sits inside the discourse
chunk, so the `Text` header has already been inserted when it is reached. -/
def c6tree : JTree :=
  ⟨"cdl", [.c (some "c1") (some "discourse") [.d (some "obverse") none none]]⟩

/-- C6 counterexample: for a tree whose first Discontinuity is obverse the
document does not start `["Obverse", ""]` — the discourse chunk inserts
the `Text` header first, and the obverse handler (whose paragraph-count
test runs after it has already appended one paragraph) adds an extra blank
before `Obverse`. -/
theorem c6_counterexample :
    parseJson fetch0 c6tree =
      .ok [[plainRun "Text"], [], [], [plainRun "Obverse"], []] := by decide

/-- Concrete tree for the C6 amended theorem: the obverse Discontinuity is
reached (inside a non-discourse chunk) before any discourse chunk. -/
def c6btree : JTree :=
  ⟨"cdl", [.c (some "c0") (some "sentence") [.d (some "obverse") none none],
           .c (some "c1") (some "discourse") []]⟩

set_option maxRecDepth 8000 in
/-- C6 as amended: the obverse handler appends an `Obverse` paragraph
followed by a blank paragraph and marks the header inserted, with an extra
leading blank paragraph inserted first exactly when at least one paragraph
already exists (the source checks `len(doc.paragraphs) >= 2` only after
appending one paragraph); when the obverse Discontinuity is processed
before any discourse chunk the document begins exactly
`["Obverse", ""]` and no separate `Text` header is added. -/
theorem c6_header_insertion :
    (∀ fr dl refs hh aa, parseD (some "obverse") fr dl ⟨[], refs, hh, aa⟩ =
      .ok ⟨[[plainRun "Obverse"], []], refs, true, aa⟩) ∧
    (∀ fr dl q qs refs hh aa, parseD (some "obverse") fr dl ⟨q :: qs, refs, hh, aa⟩ =
      .ok ⟨(q :: qs) ++ [[], [plainRun "Obverse"], []], refs, true, aa⟩) ∧
    parseJson fetch0 c6btree = .ok [[plainRun "Obverse"], []] := by
  refine ⟨?_, ?_, by decide⟩
  · intro fr dl refs hh aa
    rfl
  · intro fr dl q qs refs hh aa
    have hlen : 2 ≤ ((q :: qs) ++ [[]]).length := by
      simp [List.length_append]
    simp [parseD, hlen]
    have e : q :: (qs ++ [[], []]) = ((q :: qs) ++ [[]]) ++ [[]] := by simp
    rw [e, List.dropLast_concat, List.getLast?_concat]
    simp

/-- C10 counterexample: a Determinative whose single inner node is a
Numeral with form `a₂` renders the superscript run `á`, not the form
string `a₂` — the form passes through the subscript converter before being
emitted. -/
theorem c10_counterexample :
    renderGdl (.det "semantic" "post" [.num "a₂" deco0] deco0) false [] =
      .ok [⟨"á", false, true⟩] ∧ ("á" : String) ≠ "a₂" := by
  constructor
  · decide
  · decide

/-- C10 as amended: for a Determinative whose single inner node is a
Numeral, the rendered superscript run text is the subscript-converted form,
where a form of `1` is first replaced by the letter `m`. -/
theorem c10_numeral_det :
    ∀ dt pos form d dd dot p pre w,
      (dt = "semantic" ∨ dt = "phonetic") → (pos = "pre" ∨ pos = "post") →
      preRuns d = .ok pre → strConvert (if form = "1" then "m" else form) = .ok w →
      renderGdl (.det dt pos [.num form d] dd) dot p =
        .ok (p ++ pre ++ [⟨w, false, true⟩] ++ postRuns d ++
          (if dot then [⟨".", false, true⟩] else [])) := by
  intro dt pos form d dd dot p pre w h1 h2 hpre hw
  simp [renderGdl, h1, h2, hpre, hw, decoOf, bind, Except.bind]

/-- Witness for C10 as amended: the numeral form `1` inside a
determinative renders as superscript `m`. -/
theorem c10_witness :
    renderGdl (.det "semantic" "post" [.num "1" deco0] deco0) false [] =
      .ok ([] ++ [] ++ [⟨"m", false, true⟩] ++ postRuns deco0 ++ []) := by
  have h := c10_numeral_det "semantic" "post" "1" deco0 deco0 false [] [] "m"
    (Or.inl rfl) (Or.inr rfl) (by decide) (by decide)
  simpa using h

theorem parseD_refs (dt fr dl : Option String) (st st2 : St)
    (h : parseD dt fr dl st = .ok st2) : st2.refs = st.refs := by
  unfold parseD at h
  repeat' split at h
  all_goals simp_all
  all_goals (rw [← h])

theorem parseL_refs (f : String → Option (List Run)) (ln : LNode) (st st2 : St)
    (h : parseL f ln st = .ok st2) :
    st2.refs = st.refs ∨ st2.refs = st.refs ++ [ln.ref] := by
  unfold parseL at h
  by_cases hm : ln.ref ∈ st.refs
  · rw [if_pos hm] at h
    simp only [Except.ok.injEq] at h
    exact Or.inl (by rw [← h])
  · rw [if_neg hm] at h
    simp only [bind, Except.bind] at h
    repeat' split at h
    all_goals simp_all
    all_goals (right; rw [← h])

theorem parseL_sub (f : String → Option (List Run)) (ln : LNode) (st st2 : St)
    (h : parseL f ln st = .ok st2) : st.refs ⊆ st2.refs := by
  rcases parseL_refs f ln st st2 h with h2 | h2 <;> rw [h2]
  · exact List.Subset.refl _
  · exact List.subset_append_left _ _

theorem walkNodes_append (f : String → Option (List Run)) (xs ys : List Node) (st : St) :
    walkNodes f (xs ++ ys) st = (walkNodes f xs st).bind (fun st1 => walkNodes f ys st1) := by
  induction xs generalizing st with
  | nil => simp [walkNodes, Except.bind]
  | cons n rest ih =>
    simp only [List.cons_append, walkNodes, bind, Except.bind]
    cases hn : walkNode f n st with
    | error e => rfl
    | ok st1 => exact ih st1

theorem walkNode_mono (f : String → Option (List Run)) (n : Node) (st st2 : St)
    (hw : walkNode f n st = .ok st2) : st.refs ⊆ st2.refs := by
  refine walkNode.induct f
    (fun n st => ∀ st2, walkNode f n st = .ok st2 → st.refs ⊆ st2.refs)
    (fun ns st => ∀ st2, walkNodes f ns st = .ok st2 → st.refs ⊆ st2.refs)
    ?_ ?_ ?_ ?_ ?_ ?_ ?_ ?_ n st st2 hw
  · intro st id ctype cdl hid st2 h
    simp only [walkNode, hid, if_true] at h
    simp only [Except.ok.injEq] at h
    rw [← h]
    exact List.Subset.refl _
  · intro st id cdl hid st2 h
    simp only [walkNode, hid, if_false] at h
    exact absurd h (by simp)
  · intro st id cdl hid ty st1v ih st2 h
    simp only [walkNode, hid, if_false] at h
    refine List.Subset.trans ?_ (ih st2 h)
    unfold st1v
    split
    · exact List.Subset.refl _
    · exact List.Subset.refl _
  · intro st dtype frag delim st2 h
    simp only [walkNode] at h
    rw [parseD_refs dtype frag delim st st2 h]
    exact List.Subset.refl _
  · intro st ln st2 h
    simp only [walkNode] at h
    exact parseL_sub f ln st st2 h
  · intro st tag st2 h
    simp only [walkNode, Except.ok.injEq] at h
    rw [← h]
    exact List.Subset.refl _
  · intro st st2 h
    simp only [walkNodes, Except.ok.injEq] at h
    rw [← h]
    exact List.Subset.refl _
  · intro st n rest ih1 ih2 st2 h
    simp only [walkNodes, bind, Except.bind] at h
    cases hn : walkNode f n st with
    | error e => rw [hn] at h; exact absurd h (by simp)
    | ok st1 =>
      rw [hn] at h
      exact List.Subset.trans (ih1 st1 hn) (ih2 st1 st2 h)

/-- C1: a Lemma reference id is rendered at most once per document walk.
A lemma whose reference id is already recorded is a complete no-op (state
unchanged, no runs emitted); processing a lemma with a fresh reference id
records it; the recorded set only ever grows along a walk; and
consequently a later duplicate Lemma node anywhere in a node list can be
deleted without changing the walk: only the first occurrence in document
order produces runs. -/
theorem c1_lemma_dedup (f : String → Option (List Run)) :
    (∀ ln st, ln.ref ∈ st.refs → parseL f ln st = .ok st) ∧
    (∀ ln st st2, ln.ref ∉ st.refs → parseL f ln st = .ok st2 →
      st2.refs = st.refs ++ [ln.ref]) ∧
    (∀ n st st2, walkNode f n st = .ok st2 → st.refs ⊆ st2.refs) ∧
    (∀ xs ys ln st st1, walkNodes f xs st = .ok st1 → ln.ref ∈ st1.refs →
      walkNodes f (xs ++ Node.l ln :: ys) st = walkNodes f (xs ++ ys) st) := by
  have h1 : ∀ ln st, ln.ref ∈ st.refs → parseL f ln st = .ok st := by
    intro ln st h
    simp [parseL, h]
  refine ⟨h1, ?_, ?_, ?_⟩
  · intro ln st st2 hm h
    unfold parseL at h
    rw [if_neg hm] at h
    simp only [bind, Except.bind] at h
    repeat' split at h
    all_goals simp_all
    all_goals (rw [← h])
  · intro n st st2 h
    exact walkNode_mono f n st st2 h
  · intro xs ys ln st st1 hx hmem
    rw [walkNodes_append, walkNodes_append, hx]
    simp only [Except.bind, walkNodes, walkNode, bind]
    rw [h1 ln st1 hmem]

/-- Witness for C1: a lemma whose reference id was already rendered leaves
the state untouched. -/
theorem c1_witness :
    parseL fetch0 ⟨"r1", none, some "akk", [], none⟩ ⟨[[]], ["r1"], false, false⟩ =
      .ok ⟨[[]], ["r1"], false, false⟩ :=
  (c1_lemma_dedup fetch0).1 ⟨"r1", none, some "akk", [], none⟩
    ⟨[[]], ["r1"], false, false⟩ (by decide)

/-- C9: the reference id is recorded before language dispatch and before
any sub-element rendering, so a Lemma that emits no runs — a `qcu-949`
lemma, or one with no gdl list whose remote fetch finds nothing — still
consumes its reference id, and a later Lemma with the same reference id
also emits nothing. -/
theorem c9_ref_consumed_first (f : String → Option (List Run)) :
    ∀ (st : St) (r fr : String) (g : List Gdl) (fd : Option String) (l2 : LNode),
      st.doc ≠ [] → r ∉ st.refs → l2.ref = r →
      parseL f ⟨r, some fr, some "qcu-949", g, fd⟩ st =
        .ok ⟨st.doc, st.refs ++ [r], st.header, st.aram⟩ ∧
      (f r = none →
        parseL f ⟨r, some fr, some "akk", [], fd⟩ st =
          .ok ⟨st.doc, st.refs ++ [r], st.header, st.aram⟩) ∧
      parseL f l2 ⟨st.doc, st.refs ++ [r], st.header, st.aram⟩ =
        .ok ⟨st.doc, st.refs ++ [r], st.header, st.aram⟩ := by
  intro st r fr g fd l2 hdoc hr hl2
  obtain ⟨lp, hlp⟩ : ∃ lp, st.doc.getLast? = some lp := by
    cases hq : st.doc.getLast? with
    | none => exact absurd (List.getLast?_eq_none_iff.mp hq) hdoc
    | some lp => exact ⟨lp, rfl⟩
  refine ⟨?_, ?_, ?_⟩
  · simp [parseL, hr, hlp]
  · intro hf
    simp [parseL, hr, hlp, hf]
  · have hmem : l2.ref ∈ st.refs ++ [r] := by
      rw [hl2]; exact List.mem_append_right _ (by simp)
    simp [parseL, hmem]

/-- Witness for C9: a `qcu-949` lemma consumes its reference id while
emitting nothing, and a later lemma with the same reference id is a
no-op. -/
theorem c9_witness :
    parseL fetch0 ⟨"r9", some "w", some "qcu-949", [], none⟩ ⟨[[]], [], false, false⟩ =
      .ok ⟨[[]], ["r9"], false, false⟩ ∧
    parseL fetch0 ⟨"r9", some "w", some "akk", [.sign "tu" deco0], none⟩
        ⟨[[]], ["r9"], false, false⟩ = .ok ⟨[[]], ["r9"], false, false⟩ := by
  have h := c9_ref_consumed_first fetch0 ⟨[[]], [], false, false⟩ "r9" "w" []
    none ⟨"r9", some "w", some "akk", [.sign "tu" deco0], none⟩
    (by decide) (by decide) rfl
  exact ⟨h.1, h.2.2⟩
